import Mathlib

/-!
# Verification of the QwenAPI credential-pool gateway

A shallow embedding, in Lean 4, of the core of the QwenAPI repository:

* `src/oauth/token_manager.py` — the credential pool (`TokenManager`):
  expiry detection, forced refresh with permanent/transient classification,
  and randomized selection of a valid credential (`get_valid_token`);
* `src/api/routes.py` — the request orchestrator (`handle_chat`,
  `_make_api_request_with_retry`, `_handle_stream_response`);
* `src/utils/tool_executor.py` / `src/utils/tool_registry.py` — batch tool
  execution;
* `src/database/token_db.py` — the durable store (`TokenDatabase`), modelled
  as association lists for credential rows and per-(date, model) usage rows.

Python integers are modelled as `Int` (timestamps are epoch milliseconds),
counters as `Nat`.  Network nondeterminism (upstream HTTP outcomes), JSON
parsing of stream lines, tokenizer calls and `random` draws are passed in as
explicit parameters, so every definition is executable.
-/

/-- `TokenData` from `src/models/data_models.py`: one credential record.
`expires_at` and `uploaded_at` are nullable epoch-millisecond timestamps
(`Optional[int]` in the source). -/
structure TokenData where
  access_token : String
  refresh_token : String
  expires_at : Option Int
  uploaded_at : Option Int
  usage_count : Nat
deriving Repr, DecidableEq

/-- The expiry test used throughout `token_manager.py` and `routes.py`:
`token.expires_at and (time.time() * 1000) > token.expires_at`.
Python truthiness: a missing (`None`) or zero `expires_at` is falsy, so such
credentials are never considered expired. -/
def TokenData.isExpired (t : TokenData) (now : Int) : Bool :=
  match t.expires_at with
  | none => false
  | some e => e != 0 && now > e

/-- JSON body of the OAuth token endpoint's HTTP-200 reply, as consumed by
`TokenManager._force_refresh_token`: either unparsable (the
`response.json()` call raises), or a body with an `error` field (plus the
optional `error_description`/`message` collapsed into one option), or a
success body (`access_token`, optional `refresh_token`, optional
`expires_in` seconds). -/
inductive RefreshBody where
  | unparsable (msg : String)
  | errorBody (code : String) (description : Option String)
  | successBody (accessToken : String) (refreshToken : Option String) (expiresIn : Option Int)
deriving Repr, DecidableEq

/-- Outcome of the refresh HTTP POST as seen by
`TokenManager._force_refresh_token`: a raised transport/timeout exception,
or a response with a status code, raw text and (for status 200) a body. -/
inductive HttpOutcome where
  | exn (msg : String)
  | resp (status : Nat) (text : String) (body : RefreshBody)
deriving Repr, DecidableEq

/-- The error codes `_force_refresh_token` treats as permanent:
`{'invalid_grant', 'invalid_client', 'unauthorized_client'}`. -/
def permanentErrorCodes : List String :=
  ["invalid_grant", "invalid_client", "unauthorized_client"]

/-- `TokenManager._force_refresh_token` (token_manager.py:107-154), given the
upstream outcome `o`.  Returns the Python triple
`(refreshed token?, should_remove, error message?)`:

* a raised exception (transport/timeout) → `(none, false, msg)`;
* HTTP status ≠ 200 → `(none, status ∈ {400, 401, 403}, text or "HTTP s")`;
* status 200 but unparsable JSON → `(none, false, msg)`;
* status 200 with an `error` code → `(none, code ∈ permanentErrorCodes, msg)`;
* otherwise a new credential with `expires_at = now + expires_in·1000`
  (default 3600 s), carrying over `uploaded_at` and `usage_count`. -/
def forceRefreshToken (now : Int) (token : TokenData) (o : HttpOutcome) :
    Option TokenData × Bool × Option String :=
  match o with
  | .exn msg => (none, false, some msg)
  | .resp status text body =>
    if status ≠ 200 then
      (none, status = 400 ∨ status = 401 ∨ status = 403,
        some (if text = "" then "HTTP " ++ toString status else text))
    else
      match body with
      | .unparsable msg => (none, false, some ("解析响应失败: " ++ msg))
      | .errorBody code desc =>
          (none, permanentErrorCodes.contains code,
            some (match desc with
                  | some d => code ++ ": " ++ d
                  | none => code))
      | .successBody access refreshTok expiresIn =>
          (some { access_token := access
                  refresh_token := refreshTok.getD token.refresh_token
                  expires_at := some (now + (expiresIn.getD 3600) * 1000)
                  uploaded_at := token.uploaded_at
                  usage_count := token.usage_count },
            false, none)

/-- The scan loop inside `TokenManager.get_valid_token`
(token_manager.py:197-208), over the (already shuffled) list of
`(token_id, token)` entries.  `upstream` supplies the HTTP outcome an inline
`_force_refresh_token` call would observe for each entry.  Returns
`(valid_tokens, removed ids, entries on which a refresh was attempted)`:

* a non-expired entry is eligible as-is;
* an expired entry is force-refreshed: success makes the refreshed record
  eligible, a permanent failure (`should_remove`) removes the id, a
  transient failure merely skips the entry. -/
def scanTokens (now : Int) (upstream : String → TokenData → HttpOutcome) :
    List (String × TokenData) →
      List (String × TokenData) × List String × List (String × TokenData)
  | [] => ([], [], [])
  | (id, t) :: rest =>
    let prev := scanTokens now upstream rest
    if t.isExpired now then
      match forceRefreshToken now t (upstream id t) with
      | (some t2, _, _) => ((id, t2) :: prev.1, prev.2.1, (id, t) :: prev.2.2)
      | (none, true, _) => (prev.1, id :: prev.2.1, (id, t) :: prev.2.2)
      | (none, false, _) => (prev.1, prev.2.1, (id, t) :: prev.2.2)
    else
      ((id, t) :: prev.1, prev.2.1, prev.2.2)

/-- `TokenManager.get_valid_token` (token_manager.py:188-214).  The
`random.shuffle` is modelled by quantifying over the entry order, and
`random.choice(valid_tokens)` by an arbitrary draw index `choice` reduced
modulo the number of eligible entries.  Returns `none` when the pool is
empty or the scan produced no eligible entry. -/
def getValidToken (now : Int) (upstream : String → TokenData → HttpOutcome)
    (choice : Nat) (entries : List (String × TokenData)) :
    Option (String × TokenData) :=
  if entries.isEmpty then none
  else
    match (scanTokens now upstream entries).1 with
    | [] => none
    | v :: vs => some ((v :: vs).getD (choice % (vs.length + 1)) v)

/-- One entry of the `tokens` list built by `TokenManager.get_token_status`
(token_manager.py:47-81).  The Python dict only carries a `refreshFailed`
key in the expired branch; absence is modelled as `false`. -/
structure StatusEntry where
  id : String
  expiresAt : Option Int
  isExpired : Bool
  uploadedAt : Option Int
  usageCount : Nat
  refreshFailed : Bool
deriving Repr, DecidableEq

/-- The per-token status record built by `TokenManager.get_token_status` for
one `(token_id, token)` pair (display strings omitted). -/
def tokenStatusEntry (now : Int) (id : String) (t : TokenData) : StatusEntry :=
  if t.isExpired now then
    { id := id, expiresAt := t.expires_at, isExpired := true
      uploadedAt := t.uploaded_at, usageCount := t.usage_count
      refreshFailed := true }
  else
    { id := id, expiresAt := t.expires_at, isExpired := false
      uploadedAt := t.uploaded_at, usageCount := t.usage_count
      refreshFailed := false }

/-- `TokenManager.get_token_status` result. -/
structure TokenStatus where
  hasToken : Bool
  tokenCount : Nat
  tokens : List StatusEntry
deriving Repr, DecidableEq

/-- `TokenManager.get_token_status` over the pool's entries. -/
def getTokenStatus (now : Int) (store : List (String × TokenData)) : TokenStatus :=
  { hasToken := store.length > 0
    tokenCount := store.length
    tokens := store.map fun p => tokenStatusEntry now p.1 p.2 }

/-- Modelled from the spec: `get_token_id` lives in `src/utils/helpers.py`,
which is absent from the sources; per the spec, the credential id is
"derived deterministically from a prefix of the refresh secret", the first
8 characters (`"abc123xyz"` ↦ `"abc123xy"`). -/
def getTokenId (refreshToken : String) : String :=
  refreshToken.take 8

/-- `api_upload_token` (routes.py:84-104): rejects a missing/empty
`access_token` or `refresh_token`, otherwise builds a `TokenData` whose
`expires_at` is the optional `expiry_date` field, uploaded at `now`, and
stores it under `getTokenId refresh`. -/
def apiUploadToken (access refresh : String) (expiry : Option Int) (now : Int) :
    Option (String × TokenData) :=
  if access = "" ∨ refresh = "" then none
  else some (getTokenId refresh,
    { access_token := access, refresh_token := refresh
      expires_at := expiry, uploaded_at := some now, usage_count := 0 })

/-- A concrete credential without an expiry, used to witness the amended C1
theorem. -/
def tokC1w : TokenData :=
  { access_token := "x", refresh_token := "r",
    expires_at := none, uploaded_at := none, usage_count := 0 }

/-! ## Tool invocation (src/utils/tool_registry.py, src/utils/tool_executor.py) -/

/-- A JSON argument value, as far as `ToolRegistry._validate_type` inspects
it: only the runtime kind matters (plus the payloads a handler could read).
Python's `bool` is a subclass of `int`, so a boolean passes the `integer`
and `number` isinstance checks. -/
inductive JVal where
  | jstr (s : String)
  | jint (n : Int)
  | jfloat
  | jbool (b : Bool)
  | jarr
  | jobj
  | jnull
deriving Repr, DecidableEq

/-- `ToolRegistry._validate_type` (tool_registry.py:196-210): isinstance
check against the schema's primitive type name; unknown names pass. -/
def validateType (v : JVal) (expected : String) : Bool :=
  if expected = "string" then match v with | .jstr _ => true | _ => false
  else if expected = "integer" then
    match v with | .jint _ => true | .jbool _ => true | _ => false
  else if expected = "number" then
    match v with | .jint _ => true | .jfloat => true | .jbool _ => true | _ => false
  else if expected = "boolean" then match v with | .jbool _ => true | _ => false
  else if expected = "array" then match v with | .jarr => true | _ => false
  else if expected = "object" then match v with | .jobj => true | _ => false
  else true

/-- Python dict lookup over an association list (first binding wins). -/
def assocLookup {κ α : Type} [BEq κ] (l : List (κ × α)) (k : κ) : Option α :=
  match l.find? (fun p => p.1 == k) with
  | some p => some p.2
  | none => none

/-- `ValidationResult` from tool_registry.py. -/
structure ValidationResult where
  valid : Bool
  error : Option String
deriving Repr, DecidableEq

/-- `ToolRegistry._validate_arguments` (tool_registry.py:165-194): every
required parameter must be present, and every supplied argument that has a
schema entry with a `type` must pass `_validate_type`; the first violation
(in iteration order) is reported. -/
def validateArguments (arguments : List (String × JVal)) (required : List String)
    (properties : List (String × Option String)) : ValidationResult :=
  match required.find? (fun r => (assocLookup arguments r).isNone) with
  | some r => ⟨false, some ("缺少必需参数: " ++ r)⟩
  | none =>
    match arguments.find? (fun p =>
        match assocLookup properties p.1 with
        | some (some ty) => !(validateType p.2 ty)
        | _ => false) with
    | some p => ⟨false, some ("参数 " ++ p.1 ++ " 类型错误，期望")⟩
    | none => ⟨true, none⟩

/-- `ToolResult` from tool_registry.py. -/
structure ToolResult where
  success : Bool
  content : String
  error : Option String
deriving Repr, DecidableEq

/-- The registered handler's behaviour on given arguments: a return value
(already serialized to string content, folding in the str/json.dumps step
of tool_registry.py:108-113) or a raised exception. -/
inductive HandlerOutcome where
  | ok (content : String)
  | exn (msg : String)
deriving Repr, DecidableEq

/-- One registry entry: the declared schema (`required` names and per-param
`type` strings) plus the handler. -/
structure RegisteredTool where
  required : List String
  properties : List (String × Option String)
  run : List (String × JVal) → HandlerOutcome

/-- `ToolRegistry.execute_tool` (tool_registry.py:81-123): unknown tool →
failure result; argument validation failure → failure result; handler
exception → failure result; otherwise a success result with the serialized
return value.  No case propagates an exception. -/
def executeTool (toolFns : List (String × RegisteredTool)) (name : String)
    (arguments : List (String × JVal)) : ToolResult :=
  match assocLookup toolFns name with
  | none => ⟨false, "", some ("工具不存在: " ++ name)⟩
  | some tool =>
    match validateArguments arguments tool.required tool.properties with
    | ⟨false, err⟩ => ⟨false, "", some ("参数验证失败: " ++ err.getD "")⟩
    | ⟨true, _⟩ =>
      match tool.run arguments with
      | .ok content => ⟨true, content, none⟩
      | .exn msg => ⟨false, "", some ("工具执行错误: " ++ msg)⟩

/-- The `function` member of an upstream tool call:
`tool_call.get("function", {})` with `name` and `arguments` members. -/
structure ToolFunction where
  name : Option String
  arguments : Option String
deriving Repr, DecidableEq

/-- One upstream tool call as consumed by
`ToolCallExecutor.execute_tool_calls`: optional `id`, optional `function`
member. -/
structure ToolCall where
  id : Option String
  function : Option ToolFunction
deriving Repr, DecidableEq

/-- One element of `execute_tool_calls`' result list: a `role: "tool"`
message with the matching call id and string content. -/
structure ToolMsg where
  tool_call_id : String
  content : String
deriving Repr, DecidableEq

/-- `json.dumps` escaping of one character (quote, backslash and the common
control characters; ASCII output of other characters is the identity). -/
def jsonEscapeChar (c : Char) : List Char :=
  if c = '\\' then ['\\', '\\']
  else if c = '"' then ['\\', '"']
  else if c = '\n' then ['\\', 'n']
  else if c = '\t' then ['\\', 't']
  else if c = '\r' then ['\\', 'r']
  else [c]

/-- `json.dumps({"error": msg}, ensure_ascii=False)`. -/
def jsonErrorContent (msg : String) : String :=
  "\x7b\"error\": \"" ++ String.mk (msg.data.foldr (fun c acc => jsonEscapeChar c ++ acc) [])
    ++ "\"\x7d"

/-- The body of the `for tool_call in tool_calls` loop of
`ToolCallExecutor.execute_tool_calls` (tool_executor.py:71-118) for the
call at position `i`.  `fresh i` models the `str(uuid.uuid4())` draw used
when the call has no `id`; `parseArgs` models `json.loads` on the arguments
string (`none` = `json.JSONDecodeError`, in which case the arguments
default to the empty set).  A missing or empty function name, a failed
execution and a handler exception all become structured error content. -/
def executeOneToolCall (parseArgs : String → Option (List (String × JVal)))
    (toolFns : List (String × RegisteredTool)) (fresh : Nat → String)
    (i : Nat) (call : ToolCall) : ToolMsg :=
  match (call.function.getD ⟨none, none⟩).name with
  | none => ⟨call.id.getD (fresh i), jsonErrorContent "缺少函数名称"⟩
  | some name =>
    if name = "" then ⟨call.id.getD (fresh i), jsonErrorContent "缺少函数名称"⟩
    else
      match executeTool toolFns name
          ((parseArgs ((call.function.getD ⟨none, none⟩).arguments.getD "\x7b\x7d")).getD []) with
      | ⟨true, content, _⟩ => ⟨call.id.getD (fresh i), content⟩
      | ⟨false, _, err⟩ => ⟨call.id.getD (fresh i), jsonErrorContent (err.getD "")⟩

/-- `ToolCallExecutor.execute_tool_calls` (tool_executor.py:68-120): the
loop over the batch, starting at position `i`. -/
def executeToolCalls (parseArgs : String → Option (List (String × JVal)))
    (toolFns : List (String × RegisteredTool)) (fresh : Nat → String) :
    Nat → List ToolCall → List ToolMsg
  | _, [] => []
  | i, call :: rest =>
    executeOneToolCall parseArgs toolFns fresh i call ::
      executeToolCalls parseArgs toolFns fresh (i + 1) rest

/-! ## The chat orchestrator (src/api/routes.py) -/

/-- The first choice's `message` member of a parsed upstream chat
response. -/
structure UpstreamMessage where
  content : Option String
  tool_calls : Option (List ToolCall)
deriving Repr, DecidableEq

/-- One element of `result['choices']`. -/
structure UpstreamChoice where
  message : Option UpstreamMessage
deriving Repr, DecidableEq

/-- A parsed upstream JSON body (`result = await response.json()`), with the
members `handle_chat` reads: `choices` and `usage`.  `usage = some u`
states that the body has a `usage` member whose `total_tokens` (default 0)
is `u`; `usage = none` states the `usage` key is absent. -/
structure ChatResult where
  choices : List UpstreamChoice
  usage : Option Nat
deriving Repr, DecidableEq

/-- `result['choices'][0]['message']` when present. -/
def ChatResult.firstMessage (r : ChatResult) : Option UpstreamMessage :=
  match r.choices with
  | [] => none
  | c :: _ => c.message

/-- The `has_tool_calls` test of handle_chat (routes.py:393-399):
`'choices' in result and len(...) > 0`, the first choice has a `message`,
and `'tool_calls' in message and message['tool_calls']` (a present but
empty list is falsy). -/
def ChatResult.hasToolCalls (r : ChatResult) : Bool :=
  match r.firstMessage with
  | none => false
  | some m =>
    match m.tool_calls with
    | none => false
    | some tcs => !tcs.isEmpty

/-- A conversation message as appended by the tool loop. -/
inductive Msg where
  | plain (role : String) (content : String)
  | assistant (content : String) (tool_calls : List ToolCall)
  | tool (tool_call_id : String) (content : String)
deriving Repr, DecidableEq

/-- Observable side effects of one `handle_chat` invocation on the durable
store: an upstream POST, a Usage-Ledger write
(`db.update_token_usage(date, model, tokens)`), or a credential
usage-counter increment (`db.increment_token_usage_count(token_id)`). -/
inductive Effect where
  | upstreamCall
  | ledgerUpdate (date : String) (model : String) (tokens : Nat)
  | incrementUsage (tokenId : String)
deriving Repr, DecidableEq

/-- Is this effect a Usage-Ledger write? -/
def Effect.isLedgerUpdate : Effect → Bool
  | .ledgerUpdate _ _ _ => true
  | _ => false

/-- Is this effect a credential usage-counter increment? -/
def Effect.isIncrement : Effect → Bool
  | .incrementUsage _ => true
  | _ => false

/-- Is this effect an upstream round trip? -/
def Effect.isUpstreamCall : Effect → Bool
  | .upstreamCall => true
  | _ => false

/-- Result of the non-streaming `handle_chat` tool loop: the JSON body
returned to the caller (`none` models the `result or {...error...}`
fallback when no round ever ran), the final conversation, and the ordered
effect trace. -/
structure ChatOutcome where
  result : Option ChatResult
  conversation : List Msg
  effects : List Effect
deriving Repr, DecidableEq

/-- The `while tool_call_count < max_tool_calls` loop of `handle_chat`
(routes.py:375-445), non-streaming path, with `fuel` the remaining
iterations and `round` the number of completed rounds.  `resp round` is the
parsed 200-status body of the round's upstream POST (each round trip emits
`Effect.upstreamCall`).  On a response with tool calls the loop executes
the batch, appends the assistant message and the tool results to the
conversation, and continues; on a terminal response it writes the Usage
Ledger and increments the credential's counter (only if the body has a
`usage` member) and returns the body unchanged.  When fuel runs out the
last obtained result is returned as-is, with the same usage accounting. -/
def chatLoopAux (resp : Nat → ChatResult)
    (parseArgs : String → Option (List (String × JVal)))
    (toolFns : List (String × RegisteredTool)) (fresh : Nat → Nat → String)
    (today model tokenId : String) :
    Nat → Nat → List Msg → Option ChatResult → ChatOutcome
  | 0, _round, conv, last =>
    match last with
    | some r =>
      match r.usage with
      | some u => ⟨some r, conv, [.ledgerUpdate today model u, .incrementUsage tokenId]⟩
      | none => ⟨some r, conv, []⟩
    | none => ⟨none, conv, []⟩
  | fuel + 1, round, conv, _last =>
    let r := resp round
    if r.hasToolCalls then
      let message := r.firstMessage.getD ⟨none, none⟩
      let tcs := message.tool_calls.getD []
      let results := executeToolCalls parseArgs toolFns (fresh round) 0 tcs
      let conv2 := (conv ++ [Msg.assistant (message.content.getD "") tcs])
        ++ results.map (fun tr => Msg.tool tr.tool_call_id tr.content)
      let rec2 := chatLoopAux resp parseArgs toolFns fresh today model tokenId
        fuel (round + 1) conv2 (some r)
      ⟨rec2.result, rec2.conversation, .upstreamCall :: rec2.effects⟩
    else
      match (resp round).usage with
      | some u =>
        ⟨some r, conv, [.upstreamCall, .ledgerUpdate today model u, .incrementUsage tokenId]⟩
      | none => ⟨some r, conv, [.upstreamCall]⟩

/-- `handle_chat`'s default `max_tool_calls`. -/
def defaultMaxToolCalls : Nat := 10

/-- The whole non-streaming tool loop of `handle_chat`, from the initial
conversation (`messages.copy()`), with `tool_call_count = 0` and
`result = None`. -/
def handleChatLoop (resp : Nat → ChatResult)
    (parseArgs : String → Option (List (String × JVal)))
    (toolFns : List (String × RegisteredTool)) (fresh : Nat → Nat → String)
    (today model tokenId : String) (maxToolCalls : Nat) (messages : List Msg) :
    ChatOutcome :=
  chatLoopAux resp parseArgs toolFns fresh today model tokenId
    maxToolCalls 0 messages none

/-! ## Upstream send with bounded retry (routes.py:298-311, 377-383) -/

/-- The outcome of one `session.post` attempt: a response (any HTTP
status), or a raised `asyncio.TimeoutError`/`aiohttp.ClientError`. -/
inductive AttemptOutcome where
  | success (status : Nat) (result : ChatResult)
  | transportFailure (msg : String)
deriving Repr, DecidableEq

/-- What a `_make_api_request_with_retry` call did: the returned response or
the re-raised transport exception, how many attempts were made, and the
seconds slept (`await asyncio.sleep(2 ** attempt)`) between attempts, in
order. -/
structure RetryTrace where
  outcome : Except String (Nat × ChatResult)
  attempts : Nat
  sleeps : List Nat
deriving Repr

/-- The `for attempt in range(max_retries)` loop of
`_make_api_request_with_retry` (routes.py:298-311), with `fuel` the
remaining range and `i` the current attempt index.  A response — whatever
its status — returns immediately; a transport failure sleeps `2 ** i`
seconds and retries, unless it was the last attempt, in which case the
exception is re-raised.  (With `max_retries = 0` the Python loop body never
runs and the function falls through; `fuel = 0` models that degenerate
case.) -/
def makeApiRequestWithRetryAux (att : Nat → AttemptOutcome) : Nat → Nat → RetryTrace
  | 0, _ => ⟨.error "no attempt made", 0, []⟩
  | fuel + 1, i =>
    match att i with
    | .success status result => ⟨.ok (status, result), 1, []⟩
    | .transportFailure msg =>
      if fuel = 0 then ⟨.error msg, 1, []⟩
      else
        let rest := makeApiRequestWithRetryAux att fuel (i + 1)
        ⟨rest.outcome, rest.attempts + 1, 2 ^ i :: rest.sleeps⟩

/-- `_make_api_request_with_retry(session, url, json_data, headers,
max_retries=5)`. -/
def makeApiRequestWithRetry (att : Nat → AttemptOutcome) (maxRetries : Nat := 5) :
    RetryTrace :=
  makeApiRequestWithRetryAux att maxRetries 0

/-- How one round's send surfaces to the chat caller (routes.py:376-383):
the parsed body on a 200 response, `HTTPException(500, 'API error: s')` on
any other status, `HTTPException(500, 'Request failed: ...')` when the
retry loop re-raised a transport error. -/
inductive SendOutcome where
  | ok (result : ChatResult)
  | httpError (status : Nat)
  | requestFailed (msg : String)
deriving Repr, DecidableEq

/-- The `try: response = await _make_api_request_with_retry(...); if
response.status != 200: raise ...` block of `handle_chat`, paired with the
retry trace. -/
def chatSend (att : Nat → AttemptOutcome) (maxRetries : Nat := 5) :
    SendOutcome × RetryTrace :=
  let tr := makeApiRequestWithRetry att maxRetries
  match tr.outcome with
  | .error msg => (.requestFailed msg, tr)
  | .ok (status, r) => if status ≠ 200 then (.httpError status, tr) else (.ok r, tr)

/-! ## The durable store and who writes it
(src/database/token_db.py, src/oauth/token_manager.py) -/

/-- Upsert into an association list (dict assignment / SQLite
`INSERT OR REPLACE` keyed by id). -/
def assocUpsert {κ α : Type} [DecidableEq κ] : List (κ × α) → κ → α → List (κ × α)
  | [], k, v => [(k, v)]
  | (k1, v1) :: rest, k, v =>
    if k1 = k then (k, v) :: rest else (k1, v1) :: assocUpsert rest k v

/-- The pool-relevant mutable state: the in-memory mirror
(`TokenManager.token_store`), the store's credential rows (the `tokens`
table), and the Usage Ledger rows (`token_usage_stats`,
`(date, model) ↦ (total_tokens, call_count)`). -/
structure GatewayState where
  mirror : List (String × TokenData)
  storeTokens : List (String × TokenData)
  usageStats : List ((String × String) × (Nat × Nat))
deriving Repr, DecidableEq

/-- `TokenManager.save_token` (token_manager.py:32-35): upsert into mirror
and store. -/
def poolSaveToken (gs : GatewayState) (id : String) (t : TokenData) : GatewayState :=
  { gs with mirror := assocUpsert gs.mirror id t
            storeTokens := assocUpsert gs.storeTokens id t }

/-- `TokenManager.delete_token` (token_manager.py:37-40): remove from mirror
and store. -/
def poolDeleteToken (gs : GatewayState) (id : String) : GatewayState :=
  { gs with mirror := gs.mirror.filter (fun p => p.1 ≠ id)
            storeTokens := gs.storeTokens.filter (fun p => p.1 ≠ id) }

/-- `TokenManager.delete_all_tokens` (token_manager.py:42-45). -/
def poolDeleteAllTokens (gs : GatewayState) : GatewayState :=
  { gs with mirror := [], storeTokens := [] }

/-- `TokenDatabase.increment_token_usage_count` (token_db.py:151-156):
`UPDATE tokens SET usage_count = usage_count + 1 WHERE id = ?` — a direct
write to a credential row in the store; the in-memory mirror is not
touched. -/
def dbIncrementTokenUsageCount (gs : GatewayState) (id : String) : GatewayState :=
  { gs with storeTokens := gs.storeTokens.map fun p =>
      if p.1 = id then (p.1, { p.2 with usage_count := p.2.usage_count + 1 }) else p }

/-- `TokenDatabase.update_token_usage` (token_db.py:120-131): upsert-add
into the Usage Ledger — `total_tokens += tokens`, `call_count += 1`. -/
def dbUpdateTokenUsage (gs : GatewayState) (date model : String) (tokens : Nat) :
    GatewayState :=
  { gs with usageStats :=
      match assocLookup gs.usageStats (date, model) with
      | some prev => assocUpsert gs.usageStats (date, model)
          (prev.1 + tokens, prev.2 + 1)
      | none => gs.usageStats ++ [((date, model), (tokens, 1))] }

/-- Apply one orchestrator effect to the store state. -/
def applyEffect (gs : GatewayState) : Effect → GatewayState
  | .upstreamCall => gs
  | .ledgerUpdate date model tokens => dbUpdateTokenUsage gs date model tokens
  | .incrementUsage id => dbIncrementTokenUsageCount gs id

/-- Apply an orchestrator effect trace left to right. -/
def applyEffects (gs : GatewayState) : List Effect → GatewayState
  | [] => gs
  | e :: es => applyEffects (applyEffect gs e) es

/-! ## Streaming relay (routes.py:448-501, `_handle_stream_response`) -/

/-- Python `str.strip()`: drop whitespace from both ends.  Stream text is
modelled as `List Char` (the decoded UTF-8 of the network chunks). -/
def pyStrip (s : List Char) : List Char :=
  ((s.dropWhile Char.isWhitespace).reverse.dropWhile Char.isWhitespace).reverse

/-- `line.startswith('data:')`'s prefix. -/
def dataColon : List Char := ['d', 'a', 't', 'a', ':']

/-- The stripped `[DONE]` marker. -/
def doneMarker : List Char := ['[', 'D', 'O', 'N', 'E', ']']

/-- `startswith` over character lists. -/
def charsStartWith (pre s : List Char) : Bool :=
  s.take pre.length == pre

/-- The repeated `line, buffer = buffer.split('\n', 1)` of the stream loop:
split a buffer into its complete (newline-terminated) lines and the
trailing partial line. -/
def splitNl : List Char → List (List Char) × List Char
  | [] => ([], [])
  | c :: rest =>
    let prev := splitNl rest
    if c = '\n' then ([] :: prev.1, prev.2)
    else
      match prev.1 with
      | [] => ([], c :: prev.2)
      | l :: ls => ((c :: l) :: ls, prev.2)

/-- What `json.loads(line_data)` followed by
`json_data.get('choices', [{}])[0].get('delta', {})` yields for one data
line: the delta's `content` (default `''`) and whether the delta has a
`tool_calls` key.  `none` models any exception in that block (unparsable
JSON, an empty `choices` list, …), which the bare `except` turns into a
plain relay of the line. -/
structure StreamDelta where
  content : List Char
  hasToolCalls : Bool
deriving Repr, DecidableEq

/-- The stream scanner's mutable state: `last_content`, `completion_text`
and `tool_calls_detected` (the buffer is threaded separately). -/
structure StreamState where
  lastContent : List Char
  completionText : List Char
  toolCallsDetected : Bool
deriving Repr, DecidableEq

/-- The per-line body of the `while '\n' in buffer` loop
(routes.py:464-489).  Returns the updated state and the bytes yielded for
this line.  A `data:` line with nonempty stripped payload other than
`[DONE]` is parsed; a parse failure relays the line; a parsed delta first
sets `tool_calls_detected`, then: nonempty content different from
`last_content` is accumulated and the line relayed; empty content is
relayed; nonempty content *equal* to `last_content` is dropped (not
relayed).  Every other line (`[DONE]`, empty payload, non-`data:` lines) is
relayed verbatim with its newline. -/
def processLine (parse : List Char → Option StreamDelta) (st : StreamState)
    (line : List Char) : StreamState × List (List Char) :=
  if charsStartWith dataColon line then
    if pyStrip (line.drop 5) ≠ [] ∧ pyStrip (line.drop 5) ≠ doneMarker then
      match parse (pyStrip (line.drop 5)) with
      | none => (st, [line ++ ['\n']])
      | some delta =>
        if delta.content ≠ [] ∧ delta.content ≠ st.lastContent then
          ({ lastContent := delta.content
             completionText := st.completionText ++ delta.content
             toolCallsDetected := st.toolCallsDetected || delta.hasToolCalls },
            [line ++ ['\n']])
        else if delta.content = [] then
          ({ st with toolCallsDetected := st.toolCallsDetected || delta.hasToolCalls },
            [line ++ ['\n']])
        else
          ({ st with toolCallsDetected := st.toolCallsDetected || delta.hasToolCalls }, [])
    else (st, [line ++ ['\n']])
  else (st, [line ++ ['\n']])

/-- Fold `processLine` over the complete lines extracted from the buffer,
concatenating the yielded byte runs. -/
def processLines (parse : List Char → Option StreamDelta) :
    StreamState → List (List Char) → StreamState × List (List Char)
  | st, [] => (st, [])
  | st, l :: ls =>
    let r1 := processLine parse st l
    let r2 := processLines parse r1.1 ls
    (r2.1, r1.2 ++ r2.2)

/-- The `async for chunk in response.content.iter_any()` loop of
`generate()` (routes.py:460-492): append each chunk to the buffer, process
every complete line, and after the last chunk yield the remaining partial
buffer if nonempty. -/
def runStreamAux (parse : List Char → Option StreamDelta) :
    List Char → StreamState → List (List Char) → StreamState × List (List Char)
  | buffer, st, [] => if buffer ≠ [] then (st, [buffer]) else (st, [])
  | buffer, st, chunk :: chunks =>
    let parts := splitNl (buffer ++ chunk)
    let pr := processLines parse st parts.1
    let rest := runStreamAux parse parts.2 pr.1 chunks
    (rest.1, pr.2 ++ rest.2)

/-- The post-stream accounting of `generate()` (routes.py:494-499): only if
some content was accumulated, tokenize it (`countTokens` models
`len(encoding.encode(...))`), write prompt+completion tokens into the Usage
Ledger and increment the credential's counter; an empty `completion_text`
skips both writes. -/
def streamUsageEffects (countTokens : List Char → Nat) (today model tokenId : String)
    (promptTokens : Nat) (st : StreamState) : List Effect :=
  if st.completionText ≠ [] then
    [.ledgerUpdate today model (promptTokens + countTokens st.completionText),
      .incrementUsage tokenId]
  else []

/-- `_handle_stream_response`: run the relay from an empty buffer and fresh
state over the upstream chunk sequence, returning the final scanner state,
the concatenation-ordered yielded byte runs, and the post-stream accounting
effects. -/
def handleStreamResponse (parse : List Char → Option StreamDelta)
    (countTokens : List Char → Nat) (today model tokenId : String)
    (promptTokens : Nat) (chunks : List (List Char)) :
    StreamState × List (List Char) × List Effect :=
  let r := runStreamAux parse [] ⟨[], [], false⟩ chunks
  (r.1, r.2, streamUsageEffects countTokens today model tokenId promptTokens r.1)

/-- A tool call used by witnesses. -/
def toolCallW : ToolCall :=
  { id := some "call1", function := some { name := some "f", arguments := some "\x7b\x7d" } }

/-- An upstream response carrying one tool call, used by witnesses. -/
def respWithTool : ChatResult :=
  { choices := [{ message := some { content := some "c", tool_calls := some [toolCallW] } }]
    usage := some 5 }

/-- A terminal upstream response (no tool calls), used by witnesses. -/
def respTerminal : ChatResult :=
  { choices := [{ message := some { content := some "done", tool_calls := none } }]
    usage := some 42 }

/-- The spec's scenario: three tool-call rounds, then a terminal
response. -/
def respSeq3 : Nat → ChatResult := fun i => if i < 3 then respWithTool else respTerminal

/-- Forget a credential row's usage counter (for stating that a write
touches nothing else). -/
def stripUsage (p : String × TokenData) : String × TokenData :=
  (p.1, { p.2 with usage_count := 0 })

/-- A one-credential state whose mirror and store agree, used by the C9
counterexample. -/
def gsOne : GatewayState :=
  { mirror := [("tok", tokC1w)], storeTokens := [("tok", tokC1w)], usageStats := [] }

/-- Does processing these complete lines from this state avoid the
duplicate-content drop branch entirely?  (Executable check used to state
the pass-through property.) -/
def linesNoDrop (parse : List Char → Option StreamDelta) :
    StreamState → List (List Char) → Bool
  | _, [] => true
  | st, l :: ls =>
    decide ((processLine parse st l).2 ≠ []) &&
      linesNoDrop parse (processLine parse st l).1 ls

/-- `linesNoDrop` lifted over the chunked run. -/
def streamNoDrop (parse : List Char → Option StreamDelta) :
    List Char → StreamState → List (List Char) → Bool
  | _, _, [] => true
  | buffer, st, chunk :: chunks =>
    linesNoDrop parse st (splitNl (buffer ++ chunk)).1 &&
      streamNoDrop parse (splitNl (buffer ++ chunk)).2
        (processLines parse st (splitNl (buffer ++ chunk)).1).1 chunks

/-- The JSON payload of a one-character content delta, used by the
streaming counterexample. -/
def jsonA : List Char :=
  "\x7b\"choices\":[\x7b\"delta\":\x7b\"content\":\"a\"\x7d\x7d]\x7d".data

/-- A full `data:` line carrying that delta. -/
def lineA : List Char := "data: ".data ++ jsonA

/-- A parser agreeing with `json.loads` on the one payload the
counterexample stream contains. -/
def parseA : List Char → Option StreamDelta :=
  fun s => if s = jsonA then some ⟨['a'], false⟩ else none

/-- A `data: [DONE]` chunk (with trailing newline). -/
def doneChunk : List Char := "data: [DONE]\n".data

/-! ## Helper lemmas about the credential scan -/

theorem mem_scanTokens_valid (now : Int) (up : String → TokenData → HttpOutcome) :
    ∀ (entries : List (String × TokenData)) (id : String) (t : TokenData),
    (id, t) ∈ (scanTokens now up entries).1 →
    ((id, t) ∈ entries ∧ t.isExpired now = false) ∨
    (∃ t0, (id, t0) ∈ entries ∧ (forceRefreshToken now t0 (up id t0)).1 = some t)
  | [] => by simp [scanTokens]
  | (pid, pt) :: rest => by
    intro id t h
    by_cases hexp : pt.isExpired now
    · rcases hr : forceRefreshToken now pt (up pid pt) with ⟨ro, rb, rm⟩
      cases ro with
      | some t2 =>
        simp only [scanTokens, hexp, hr, if_true] at h
        rcases List.mem_cons.mp h with heq | h
        · injection heq with h1 h2
          subst h1; subst h2
          exact Or.inr ⟨pt, by simp, by rw [hr]⟩
        · rcases mem_scanTokens_valid now up rest _ _ h with ⟨h1, h2⟩ | ⟨t0, h1, h2⟩
          · exact Or.inl ⟨List.mem_cons_of_mem _ h1, h2⟩
          · exact Or.inr ⟨t0, List.mem_cons_of_mem _ h1, h2⟩
      | none =>
        cases rb with
        | true =>
          simp only [scanTokens, hexp, hr, if_true] at h
          rcases mem_scanTokens_valid now up rest _ _ h with ⟨h1, h2⟩ | ⟨t0, h1, h2⟩
          · exact Or.inl ⟨List.mem_cons_of_mem _ h1, h2⟩
          · exact Or.inr ⟨t0, List.mem_cons_of_mem _ h1, h2⟩
        | false =>
          simp only [scanTokens, hexp, hr, if_true] at h
          rcases mem_scanTokens_valid now up rest _ _ h with ⟨h1, h2⟩ | ⟨t0, h1, h2⟩
          · exact Or.inl ⟨List.mem_cons_of_mem _ h1, h2⟩
          · exact Or.inr ⟨t0, List.mem_cons_of_mem _ h1, h2⟩
    · simp only [scanTokens, hexp, if_false] at h
      rcases List.mem_cons.mp h with heq | h
      · injection heq with h1 h2
        subst h1; subst h2
        exact Or.inl ⟨by simp, by simpa using hexp⟩
      · rcases mem_scanTokens_valid now up rest _ _ h with ⟨h1, h2⟩ | ⟨t0, h1, h2⟩
        · exact Or.inl ⟨List.mem_cons_of_mem _ h1, h2⟩
        · exact Or.inr ⟨t0, List.mem_cons_of_mem _ h1, h2⟩

/-- Every entry recorded as refreshed by the scan was expired at scan time:
the inline `_force_refresh_token` call happens only in the `else` branch of
the expiry test. -/
theorem mem_scanTokens_refreshed (now : Int) (up : String → TokenData → HttpOutcome) :
    ∀ (entries : List (String × TokenData)) (id : String) (t : TokenData),
    (id, t) ∈ (scanTokens now up entries).2.2 → t.isExpired now = true
  | [] => by simp [scanTokens]
  | (pid, pt) :: rest => by
    intro id t h
    by_cases hexp : pt.isExpired now
    · rcases hr : forceRefreshToken now pt (up pid pt) with ⟨ro, rb, rm⟩
      cases ro with
      | some t2 =>
        simp only [scanTokens, hexp, hr, if_true] at h
        rcases List.mem_cons.mp h with heq | h
        · injection heq with h1 h2; subst h1; subst h2; exact hexp
        · exact mem_scanTokens_refreshed now up rest _ _ h
      | none =>
        cases rb with
        | true =>
          simp only [scanTokens, hexp, hr, if_true] at h
          rcases List.mem_cons.mp h with heq | h
          · injection heq with h1 h2; subst h1; subst h2; exact hexp
          · exact mem_scanTokens_refreshed now up rest _ _ h
        | false =>
          simp only [scanTokens, hexp, hr, if_true] at h
          rcases List.mem_cons.mp h with heq | h
          · injection heq with h1 h2; subst h1; subst h2; exact hexp
          · exact mem_scanTokens_refreshed now up rest _ _ h
    · simp only [scanTokens, hexp, if_false] at h
      exact mem_scanTokens_refreshed now up rest _ _ h

/-- A non-expired entry survives the scan unchanged (it is added to
`valid_tokens` as-is). -/
theorem scanTokens_valid_of_not_expired (now : Int) (up : String → TokenData → HttpOutcome) :
    ∀ (entries : List (String × TokenData)) (id : String) (t : TokenData),
    (id, t) ∈ entries → t.isExpired now = false →
    (id, t) ∈ (scanTokens now up entries).1
  | [] => by simp
  | (pid, pt) :: rest => by
    intro id t hmem hexp2
    rcases List.mem_cons.mp hmem with heq | hmem
    · injection heq with h1 h2; subst h1; subst h2
      simp only [scanTokens, hexp2, if_false]
      exact List.mem_cons_self _ _
    · have ih := scanTokens_valid_of_not_expired now up rest _ _ hmem hexp2
      by_cases hexp : pt.isExpired now
      · rcases hr : forceRefreshToken now pt (up pid pt) with ⟨ro, rb, rm⟩
        cases ro with
        | some t2 =>
          simp only [scanTokens, hexp, hr, if_true]
          exact List.mem_cons_of_mem _ ih
        | none =>
          cases rb with
          | true =>
            simp only [scanTokens, hexp, hr, if_true]
            exact ih
          | false =>
            simp only [scanTokens, hexp, hr, if_true]
            exact ih
      · simp only [scanTokens, hexp, if_false]
        exact List.mem_cons_of_mem _ ih
/-- Any `getD` draw with the head as default stays in the list. -/
theorem cons_getD_mem {α : Type} (v : α) (vs : List α) (n : Nat) :
    (v :: vs).getD n v ∈ v :: vs := by
  by_cases h : n < (v :: vs).length
  · rw [List.getD_eq_getElem _ _ h]
    exact List.getElem_mem h
  · rw [List.getD_eq_default _ _ (le_of_not_lt h)]
    exact List.mem_cons_self _ _

/-- C1 (counterexample): with `now = 1000` ms, a credential whose
`expires_at` equals `now` exactly (so its expiry is at-or-before the current
time) is treated as *not* expired by `get_valid_token` — the expiry test is
strict `>` — and is returned without any refresh attempt, even though the
refresh endpoint (here: always a transport error) could never have
succeeded. -/
theorem C1_boundary_expiry_cex :
    getValidToken 1000 (fun _ _ => HttpOutcome.exn "connection error") 0
      [("tok1", { access_token := "a", refresh_token := "r",
                  expires_at := some 1000, uploaded_at := some 0, usage_count := 0 })]
      = some ("tok1", { access_token := "a", refresh_token := "r",
                        expires_at := some 1000, uploaded_at := some 0, usage_count := 0 })
    ∧ ((1000 : Int) ≤ 1000)
    ∧ (forceRefreshToken 1000
        { access_token := "a", refresh_token := "r",
          expires_at := some 1000, uploaded_at := some 0, usage_count := 0 }
        (HttpOutcome.exn "connection error")).1 = none := by
  refine ⟨?_, le_refl _, rfl⟩
  rfl

/-- C1 (amended): `get_valid_token` never returns a credential whose expiry
is present, nonzero and *strictly* before the current time unless an inline
refresh during that same call succeeded: every returned credential is either
an original entry that the expiry test classified as not expired, or the
result of a successful inline `_force_refresh_token`.  Moreover it returns
`none` exactly when the pool is empty or every scanned entry was found
ineligible or removed (the scan's `valid_tokens` list is empty), and
otherwise returns one of the credentials found eligible during the scan
(chosen by the random draw). -/
theorem C1_getValidToken_amended (now : Int) (up : String → TokenData → HttpOutcome)
    (choice : Nat) (entries : List (String × TokenData)) :
    (∀ id t, getValidToken now up choice entries = some (id, t) →
      ((id, t) ∈ entries ∧ t.isExpired now = false) ∨
      (∃ t0, (id, t0) ∈ entries ∧ (forceRefreshToken now t0 (up id t0)).1 = some t))
    ∧ (getValidToken now up choice entries = none ↔ (scanTokens now up entries).1 = [])
    ∧ (∀ v, getValidToken now up choice entries = some v →
        v ∈ (scanTokens now up entries).1) := by
  have hmem : ∀ v, getValidToken now up choice entries = some v →
      v ∈ (scanTokens now up entries).1 := by
    intro v hv
    cases entries with
    | nil => simp [getValidToken] at hv
    | cons e es =>
      rcases hval : (scanTokens now up (e :: es)).1 with _ | ⟨w, ws⟩
      · simp [getValidToken, hval] at hv
      · simp only [getValidToken, List.isEmpty_cons, hval] at hv
        simp only [if_false, Bool.false_eq_true, Option.some.injEq] at hv
        rw [← hv]
        exact cons_getD_mem w ws _
  refine ⟨?_, ⟨?_, ?_⟩, hmem⟩
  · intro id t hv
    exact mem_scanTokens_valid now up entries id t (hmem _ hv)
  · intro hnone
    cases entries with
    | nil => rfl
    | cons e es =>
      rcases hval : (scanTokens now up (e :: es)).1 with _ | ⟨w, ws⟩
      · rfl
      · simp [getValidToken, hval] at hnone
  · intro hval
    cases entries with
    | nil => rfl
    | cons e es => simp [getValidToken, hval]

/-- C1 (witness for the amended theorem): a pool with a single credential
without an expiry returns that credential, and the theorem classifies it as
an eligible original entry. -/
theorem C1_getValidToken_amended_witness :
    (("a", tokC1w) ∈ [("a", tokC1w)] ∧ TokenData.isExpired tokC1w 7 = false)
    ∨ (∃ t0, ("a", t0) ∈ [("a", tokC1w)]
        ∧ (forceRefreshToken 7 t0 ((fun _ _ => HttpOutcome.exn "e") "a" t0)).1
            = some tokC1w) :=
  (C1_getValidToken_amended 7 (fun _ _ => HttpOutcome.exn "e") 0
    [("a", tokC1w)]).1 "a" tokC1w rfl
/-- C2: classification of refresh outcomes by `_force_refresh_token`:
an upstream HTTP status of 400, 401 or 403 is permanent (`should_remove`,
the caller deletes the credential); an HTTP-200 JSON error body whose code
is `invalid_grant`, `invalid_client` or `unauthorized_client` is permanent;
any other JSON error code is transient (no removal, no new credential); and
a transport/timeout failure (raised exception) is transient, surfacing the
error message to the caller. -/
theorem C2_refresh_classification :
    (∀ (now : Int) (token : TokenData) (status : Nat) (text : String) (body : RefreshBody),
      status = 400 ∨ status = 401 ∨ status = 403 →
      (forceRefreshToken now token (.resp status text body)).1 = none ∧
      (forceRefreshToken now token (.resp status text body)).2.1 = true)
    ∧ (∀ (now : Int) (token : TokenData) (text : String) (code : String)
        (desc : Option String),
      code = "invalid_grant" ∨ code = "invalid_client" ∨ code = "unauthorized_client" →
      (forceRefreshToken now token (.resp 200 text (.errorBody code desc))).1 = none ∧
      (forceRefreshToken now token (.resp 200 text (.errorBody code desc))).2.1 = true)
    ∧ (∀ (now : Int) (token : TokenData) (text : String) (code : String)
        (desc : Option String),
      code ≠ "invalid_grant" → code ≠ "invalid_client" → code ≠ "unauthorized_client" →
      (forceRefreshToken now token (.resp 200 text (.errorBody code desc))).1 = none ∧
      (forceRefreshToken now token (.resp 200 text (.errorBody code desc))).2.1 = false)
    ∧ (∀ (now : Int) (token : TokenData) (msg : String),
      forceRefreshToken now token (.exn msg) = (none, false, some msg)) := by
  refine ⟨?_, ?_, ?_, fun now token msg => rfl⟩
  · intro now token status text body hs
    rcases hs with rfl | rfl | rfl <;> exact ⟨rfl, by simp [forceRefreshToken]⟩
  · intro now token text code desc hc
    rcases hc with rfl | rfl | rfl <;> exact ⟨rfl, rfl⟩
  · intro now token text code desc h1 h2 h3
    refine ⟨rfl, ?_⟩
    simp [forceRefreshToken, permanentErrorCodes, List.contains_cons, List.contains_nil, beq_iff_eq, h1, h2, h3]

/-- C2 (witness): an HTTP 401 refresh response is classified permanent. -/
theorem C2_refresh_classification_witness :
    (forceRefreshToken 0 tokC1w (.resp 401 "denied" (.unparsable "x"))).1 = none ∧
    (forceRefreshToken 0 tokC1w (.resp 401 "denied" (.unparsable "x"))).2.1 = true :=
  C2_refresh_classification.1 0 tokC1w 401 "denied" (.unparsable "x") (Or.inr (Or.inl rfl))
/-- A credential with no expiry field is never expired, for any current
time. -/
theorem isExpired_none {t : TokenData} (h : t.expires_at = none) (now : Int) :
    t.isExpired now = false := by
  unfold TokenData.isExpired
  rw [h]

/-- C10: a credential whose expiry field is null/absent is treated as never
expired by every operation: the `get_valid_token` scan finds it eligible
as-is and never attempts an inline refresh on it, `get_token_status` reports
it with `isExpired := false`, and uploading a credential without an
`expiry_date` produces exactly such a record. -/
theorem C10_null_expiry_never_expired :
    (∀ (now : Int) (up : String → TokenData → HttpOutcome)
       (entries : List (String × TokenData)) (id : String) (t : TokenData),
      (id, t) ∈ entries → t.expires_at = none →
      (id, t) ∈ (scanTokens now up entries).1 ∧
      (id, t) ∉ (scanTokens now up entries).2.2)
    ∧ (∀ (now : Int) (id : String) (t : TokenData), t.expires_at = none →
        (tokenStatusEntry now id t).isExpired = false)
    ∧ (∀ (a r : String) (now : Int) (id : String) (t : TokenData),
        apiUploadToken a r none now = some (id, t) →
        t.expires_at = none ∧ t.isExpired now = false) := by
  refine ⟨?_, ?_, ?_⟩
  · intro now up entries id t hmem hnone
    refine ⟨scanTokens_valid_of_not_expired now up entries id t hmem (isExpired_none hnone now), ?_⟩
    intro href
    have := mem_scanTokens_refreshed now up entries id t href
    rw [isExpired_none hnone now] at this
    exact Bool.false_ne_true this
  · intro now id t hnone
    unfold tokenStatusEntry
    rw [isExpired_none hnone now]
    rfl
  · intro a r now id t hup
    unfold apiUploadToken at hup
    by_cases hab : a = "" ∨ r = ""
    · rw [if_pos hab] at hup; exact absurd hup (by simp)
    · rw [if_neg hab] at hup
      injection hup with hpair
      injection hpair with h1 h2
      subst h2
      exact ⟨rfl, rfl⟩

/-- C10 (witness): a concrete pool holding one credential without expiry —
the scan keeps it eligible, refreshes nothing, and status reports it
unexpired. -/
theorem C10_null_expiry_never_expired_witness :
    ("a", tokC1w) ∈ (scanTokens 99 (fun _ _ => HttpOutcome.exn "e") [("a", tokC1w)]).1 ∧
    ("a", tokC1w) ∉ (scanTokens 99 (fun _ _ => HttpOutcome.exn "e") [("a", tokC1w)]).2.2 :=
  C10_null_expiry_never_expired.1 99 (fun _ _ => HttpOutcome.exn "e")
    [("a", tokC1w)] "a" tokC1w (List.mem_cons_self _ _) rfl
/-! ## Retry loop lemmas -/

/-- The retry loop makes at most `fuel` attempts. -/
theorem retryAux_attempts_le (att : Nat → AttemptOutcome) :
    ∀ (fuel i : Nat), (makeApiRequestWithRetryAux att fuel i).attempts ≤ fuel
  | 0, _ => le_refl 0
  | fuel + 1, i => by
    unfold makeApiRequestWithRetryAux
    cases h : att i with
    | success s r => simp
    | transportFailure m =>
      by_cases hf : fuel = 0
      · subst hf; simp
      · simp only [hf, if_false]
        exact Nat.succ_le_succ (retryAux_attempts_le att fuel (i + 1))

/-- With fuel left, the loop makes at least one attempt. -/
theorem retryAux_attempts_pos (att : Nat → AttemptOutcome) :
    ∀ (fuel i : Nat), 0 < fuel → 0 < (makeApiRequestWithRetryAux att fuel i).attempts := by
  intro fuel i hf
  cases fuel with
  | zero => exact absurd hf (lt_irrefl 0)
  | succ fuel =>
    unfold makeApiRequestWithRetryAux
    cases h : att i with
    | success s r => simp
    | transportFailure m =>
      by_cases hf0 : fuel = 0
      · subst hf0; simp
      · simp [hf0]

/-- The sleeps are exactly `2^i, 2^(i+1), …`, one per non-final attempt. -/
theorem retryAux_sleeps (att : Nat → AttemptOutcome) :
    ∀ (fuel i : Nat),
    (makeApiRequestWithRetryAux att fuel i).sleeps
      = (List.range ((makeApiRequestWithRetryAux att fuel i).attempts - 1)).map
          (fun j => 2 ^ (i + j))
  | 0, _i => rfl
  | fuel + 1, i => by
    unfold makeApiRequestWithRetryAux
    cases h : att i with
    | success s r => rfl
    | transportFailure m =>
      by_cases hf : fuel = 0
      · subst hf; rfl
      · simp only [hf, if_false]
        have hpos := retryAux_attempts_pos att fuel (i + 1) (Nat.pos_of_ne_zero hf)
        have ih := retryAux_sleeps att fuel (i + 1)
        obtain ⟨n, hn⟩ : ∃ n, (makeApiRequestWithRetryAux att fuel (i + 1)).attempts = n + 1 :=
          ⟨(makeApiRequestWithRetryAux att fuel (i + 1)).attempts - 1, by omega⟩
        rw [hn] at ih
        rw [ih, hn]
        simp only [Nat.add_sub_cancel, List.range_succ_eq_map, List.map_cons, List.map_map]
        refine List.cons_eq_cons.mpr ⟨by rw [Nat.add_zero], ?_⟩
        refine List.map_congr_left (fun a _ => ?_)
        simp only [Function.comp_apply]
        congr 1
        omega

/-- A returned response came from the last attempt made, and every earlier
attempt was a transport failure. -/
theorem retryAux_ok (att : Nat → AttemptOutcome) :
    ∀ (fuel i : Nat) (s : Nat) (r : ChatResult),
    (makeApiRequestWithRetryAux att fuel i).outcome = .ok (s, r) →
    att (i + ((makeApiRequestWithRetryAux att fuel i).attempts - 1)) = .success s r
    ∧ ∀ j < (makeApiRequestWithRetryAux att fuel i).attempts - 1,
        ∃ m, att (i + j) = .transportFailure m
  | 0, i, s, r => by intro h; exact absurd h (by simp [makeApiRequestWithRetryAux])
  | fuel + 1, i, s, r => by
    intro hok
    cases h : att i with
    | success s2 r2 =>
      unfold makeApiRequestWithRetryAux at hok ⊢
      rw [h] at hok ⊢
      simp only at hok ⊢
      injection hok with hpair
      injection hpair with h1 h2
      subst h1; subst h2
      refine ⟨by simpa using h, ?_⟩
      intro j hj
      simp at hj
    | transportFailure m =>
      unfold makeApiRequestWithRetryAux at hok ⊢
      rw [h] at hok ⊢
      by_cases hf : fuel = 0
      · subst hf
        simp at hok
      · simp only [hf, if_false] at hok ⊢
        have hpos := retryAux_attempts_pos att fuel (i + 1) (Nat.pos_of_ne_zero hf)
        have ih := retryAux_ok att fuel (i + 1) s r hok
        obtain ⟨n, hn⟩ : ∃ n, (makeApiRequestWithRetryAux att fuel (i + 1)).attempts = n + 1 :=
          ⟨(makeApiRequestWithRetryAux att fuel (i + 1)).attempts - 1, by omega⟩
        rw [hn] at ih
        simp only [Nat.add_sub_cancel] at ih
        rw [hn]
        simp only [Nat.add_sub_cancel]
        constructor
        · have heq : i + 1 + n = i + (n + 1) := by omega
          rw [← heq]
          exact ih.1
        · intro j hj
          cases j with
          | zero => exact ⟨m, by simpa using h⟩
          | succ j =>
            have hj2 : j < n := by omega
            have heq : i + 1 + j = i + (j + 1) := by omega
            rw [← heq]
            exact ih.2 j hj2

/-- C6: for every upstream send, `_make_api_request_with_retry` makes at
most 5 attempts; the sleeps between attempts are exactly `2^0, 2^1, …` (so
before retry attempt `k+1` it waits `2^k` seconds); a returned response —
of any HTTP status — always comes from the final attempt made, with every
earlier attempt a transport failure (only transport failures trigger a
retry); and a first-attempt response with non-2xx status is surfaced
directly as a server error (`HTTPException(500, 'API error: …')`) after
exactly one attempt and zero sleeps. -/
theorem C6_retry_policy :
    (∀ (att : Nat → AttemptOutcome), (makeApiRequestWithRetry att).attempts ≤ 5)
    ∧ (∀ (att : Nat → AttemptOutcome),
        (makeApiRequestWithRetry att).sleeps
          = (List.range ((makeApiRequestWithRetry att).attempts - 1)).map (fun k => 2 ^ k))
    ∧ (∀ (att : Nat → AttemptOutcome) (s : Nat) (r : ChatResult),
        (makeApiRequestWithRetry att).outcome = .ok (s, r) →
        att ((makeApiRequestWithRetry att).attempts - 1) = .success s r
        ∧ ∀ j < (makeApiRequestWithRetry att).attempts - 1,
            ∃ m, att j = .transportFailure m)
    ∧ (∀ (att : Nat → AttemptOutcome) (s : Nat) (r : ChatResult),
        att 0 = .success s r → s ≠ 200 →
        chatSend att = (.httpError s, ⟨.ok (s, r), 1, []⟩)) := by
  refine ⟨?_, ?_, ?_, ?_⟩
  · intro att; exact retryAux_attempts_le att 5 0
  · intro att
    simpa using retryAux_sleeps att 5 0
  · intro att s r hok
    simpa using retryAux_ok att 5 0 s r hok
  · intro att s r h0 hs
    unfold chatSend makeApiRequestWithRetry makeApiRequestWithRetryAux
    rw [h0]
    simp [hs]

/-- C6 (witness): a single 503 response is returned after one attempt with
no sleeps and surfaces as a server error. -/
theorem C6_retry_policy_witness :
    chatSend (fun _ => AttemptOutcome.success 503 ⟨[], none⟩)
      = (.httpError 503, ⟨.ok (503, ⟨[], none⟩), 1, []⟩) :=
  C6_retry_policy.2.2.2 (fun _ => AttemptOutcome.success 503 ⟨[], none⟩) 503 ⟨[], none⟩
    rfl (by decide)
/-! ## Tool-loop lemmas -/

/-- A run of the tool loop that meets a terminal response after `n`
tool-call rounds (with fuel to spare) returns that terminal body unchanged,
and its effect trace is `n + 1` upstream calls followed by exactly one
Usage-Ledger write and one usage-counter increment (none if the terminal
body lacks a `usage` member). -/
theorem chatLoopAux_run (resp : Nat → ChatResult)
    (parseArgs : String → Option (List (String × JVal)))
    (toolFns : List (String × RegisteredTool)) (fresh : Nat → Nat → String)
    (today model tokenId : String) :
    ∀ (n fuel round : Nat) (conv : List Msg) (last : Option ChatResult),
    (∀ i, i < n → (resp (round + i)).hasToolCalls = true) →
    (resp (round + n)).hasToolCalls = false →
    n < fuel →
    (chatLoopAux resp parseArgs toolFns fresh today model tokenId fuel round conv last).result
        = some (resp (round + n))
    ∧ (chatLoopAux resp parseArgs toolFns fresh today model tokenId fuel round conv last).effects
        = List.replicate (n + 1) Effect.upstreamCall ++
          (match (resp (round + n)).usage with
            | some u => [Effect.ledgerUpdate today model u, Effect.incrementUsage tokenId]
            | none => [])
  | 0, fuel, round, conv, last => by
    intro _htool hterm hlt
    cases fuel with
    | zero => omega
    | succ f =>
      unfold chatLoopAux
      rw [Nat.add_zero] at hterm ⊢
      simp only [hterm, if_false, Bool.false_eq_true]
      cases hu : (resp round).usage with
      | some u => simp [hu]
      | none => simp [hu]
  | n + 1, fuel, round, conv, last => by
    intro htool hterm hlt
    cases fuel with
    | zero => omega
    | succ f =>
      unfold chatLoopAux
      have h0 : (resp (round + 0)).hasToolCalls = true := htool 0 (Nat.succ_pos n)
      rw [Nat.add_zero] at h0
      simp only [h0, if_true]
      have h1 : ∀ i, i < n → (resp (round + 1 + i)).hasToolCalls = true := by
        intro i hi
        have := htool (i + 1) (by omega)
        have heq : round + (i + 1) = round + 1 + i := by omega
        rw [heq] at this
        exact this
      have h2 : (resp (round + 1 + n)).hasToolCalls = false := by
        have heq : round + (n + 1) = round + 1 + n := by omega
        rw [heq] at hterm
        exact hterm
      have h3 : n < f := by omega
      have heqn : round + 1 + n = round + (n + 1) := by omega
      have ih : ∀ conv2 : List Msg,
          (chatLoopAux resp parseArgs toolFns fresh today model tokenId f (round + 1) conv2
            (some (resp round))).result = some (resp (round + (n + 1)))
          ∧ (chatLoopAux resp parseArgs toolFns fresh today model tokenId f (round + 1) conv2
              (some (resp round))).effects
            = List.replicate (n + 1) Effect.upstreamCall ++
              (match (resp (round + (n + 1))).usage with
                | some u => [Effect.ledgerUpdate today model u, Effect.incrementUsage tokenId]
                | none => []) := by
        intro conv2
        have h := chatLoopAux_run resp parseArgs toolFns fresh today model tokenId
          n f (round + 1) conv2 (some (resp round)) h1 h2 h3
        rwa [heqn] at h
      constructor
      · simpa using (ih _).1
      · simp only [List.replicate_succ]
        simpa using (ih _).2
/-- Under upstream responses that always carry tool calls, the loop makes
exactly `fuel` upstream round trips and returns the last obtained result
(`last` if it had no fuel at all). -/
theorem chatLoopAux_allToolCalls (resp : Nat → ChatResult)
    (parseArgs : String → Option (List (String × JVal)))
    (toolFns : List (String × RegisteredTool)) (fresh : Nat → Nat → String)
    (today model tokenId : String)
    (hall : ∀ i, (resp i).hasToolCalls = true) :
    ∀ (fuel round : Nat) (conv : List Msg) (last : Option ChatResult),
    (chatLoopAux resp parseArgs toolFns fresh today model tokenId fuel round conv
        last).effects.countP Effect.isUpstreamCall = fuel
    ∧ (chatLoopAux resp parseArgs toolFns fresh today model tokenId fuel round conv
        last).result = (if fuel = 0 then last else some (resp (round + fuel - 1)))
  | 0, round, conv, last => by
    unfold chatLoopAux
    cases last with
    | some r =>
      cases hu : r.usage with
      | some u => simp [hu, List.countP, List.countP.go, Effect.isUpstreamCall]
      | none => simp [hu, List.countP, List.countP.go]
    | none => simp [List.countP, List.countP.go]
  | fuel + 1, round, conv, last => by
    unfold chatLoopAux
    simp only [hall round, if_true]
    have ih : ∀ conv2 : List Msg,
        (chatLoopAux resp parseArgs toolFns fresh today model tokenId fuel (round + 1) conv2
          (some (resp round))).effects.countP Effect.isUpstreamCall = fuel
        ∧ (chatLoopAux resp parseArgs toolFns fresh today model tokenId fuel (round + 1) conv2
          (some (resp round))).result
            = (if fuel = 0 then some (resp round) else some (resp (round + 1 + fuel - 1))) :=
      fun conv2 => chatLoopAux_allToolCalls resp parseArgs toolFns fresh today model tokenId
        hall fuel (round + 1) conv2 (some (resp round))
    have hres : ∀ conv2 : List Msg,
        (chatLoopAux resp parseArgs toolFns fresh today model tokenId fuel (round + 1) conv2
          (some (resp round))).result = some (resp (round + fuel)) := by
      intro conv2
      rw [(ih conv2).2]
      cases fuel with
      | zero => simp
      | succ g =>
        have heq : round + 1 + (g + 1) - 1 = round + (g + 1) := by omega
        simp [heq]
    constructor
    · simp only [List.countP_cons, Effect.isUpstreamCall, if_true]
      exact congrArg (fun x => x + 1) ((ih _).1)
    · simpa using hres _
/-- Filtering a run of one uninteresting element yields nothing. -/
theorem filter_replicate_false {α : Type} (p : α → Bool) (a : α) (h : p a = false) :
    ∀ n, (List.replicate n a).filter p = []
  | 0 => rfl
  | n + 1 => by
    rw [List.replicate_succ, List.filter_cons, h]
    simp only [Bool.false_eq_true, if_false]
    exact filter_replicate_false p a h n

/-- C3: a non-streaming exchange whose `n`-th upstream response is terminal
(no tool calls) after `n` tool-call rounds, `n` below the tool bound,
writes the Usage Ledger exactly once — with the terminal response's
`usage.total_tokens` under (today, model) — increments the selected
credential's usage counter exactly once for the whole exchange, and returns
the terminal body unchanged. -/
theorem C3_terminal_usage_once (resp : Nat → ChatResult)
    (parseArgs : String → Option (List (String × JVal)))
    (toolFns : List (String × RegisteredTool)) (fresh : Nat → Nat → String)
    (today model tokenId : String) (messages : List Msg) (maxToolCalls n u : Nat)
    (htool : ∀ i, i < n → (resp i).hasToolCalls = true)
    (hterm : (resp n).hasToolCalls = false)
    (husage : (resp n).usage = some u)
    (hlt : n < maxToolCalls) :
    (handleChatLoop resp parseArgs toolFns fresh today model tokenId maxToolCalls
        messages).result = some (resp n)
    ∧ (handleChatLoop resp parseArgs toolFns fresh today model tokenId maxToolCalls
        messages).effects.filter Effect.isLedgerUpdate
        = [Effect.ledgerUpdate today model u]
    ∧ (handleChatLoop resp parseArgs toolFns fresh today model tokenId maxToolCalls
        messages).effects.filter Effect.isIncrement
        = [Effect.incrementUsage tokenId] := by
  have h := chatLoopAux_run resp parseArgs toolFns fresh today model tokenId
    n maxToolCalls 0 messages none (by simpa using htool) (by simpa using hterm) hlt
  rw [Nat.zero_add] at h
  unfold handleChatLoop
  refine ⟨h.1, ?_, ?_⟩
  · rw [h.2, List.filter_append,
      filter_replicate_false Effect.isLedgerUpdate Effect.upstreamCall rfl, husage]
    rfl
  · rw [h.2, List.filter_append,
      filter_replicate_false Effect.isIncrement Effect.upstreamCall rfl, husage]
    rfl

/-- C3 (witness): the scenario of the spec — 3 tool-call rounds, the 4th
upstream response terminal with `total_tokens = 42` — updates the ledger
once, increments the counter once, and returns the terminal body. -/
theorem C3_terminal_usage_once_witness :
    (handleChatLoop respSeq3 (fun _ => none) [] (fun _ _ => "uid") "2026-10-12" "m" "tok"
        defaultMaxToolCalls [Msg.plain "user" "hi"]).result = some (respSeq3 3)
    ∧ (handleChatLoop respSeq3 (fun _ => none) [] (fun _ _ => "uid") "2026-10-12" "m" "tok"
        defaultMaxToolCalls [Msg.plain "user" "hi"]).effects.filter Effect.isLedgerUpdate
        = [Effect.ledgerUpdate "2026-10-12" "m" 42]
    ∧ (handleChatLoop respSeq3 (fun _ => none) [] (fun _ _ => "uid") "2026-10-12" "m" "tok"
        defaultMaxToolCalls [Msg.plain "user" "hi"]).effects.filter Effect.isIncrement
        = [Effect.incrementUsage "tok"] :=
  C3_terminal_usage_once respSeq3 (fun _ => none) [] (fun _ _ => "uid") "2026-10-12" "m" "tok"
    [Msg.plain "user" "hi"] defaultMaxToolCalls 3 42
    (by decide) (by decide) (by decide) (by decide)

/-- C7: when every upstream response carries tool calls, the non-streaming
tool loop performs exactly `max_tool_calls` upstream round trips — in
particular at most `max_tool_calls + 1`, and at most 11 at the default
bound of 10 — and then terminates, returning the last obtained result
as-is. -/
theorem C7_tool_loop_bound (resp : Nat → ChatResult)
    (parseArgs : String → Option (List (String × JVal)))
    (toolFns : List (String × RegisteredTool)) (fresh : Nat → Nat → String)
    (today model tokenId : String) (messages : List Msg) (maxToolCalls : Nat)
    (hall : ∀ i, (resp i).hasToolCalls = true) :
    (handleChatLoop resp parseArgs toolFns fresh today model tokenId maxToolCalls
        messages).effects.countP Effect.isUpstreamCall = maxToolCalls
    ∧ (handleChatLoop resp parseArgs toolFns fresh today model tokenId maxToolCalls
        messages).effects.countP Effect.isUpstreamCall ≤ maxToolCalls + 1
    ∧ (handleChatLoop resp parseArgs toolFns fresh today model tokenId defaultMaxToolCalls
        messages).effects.countP Effect.isUpstreamCall ≤ defaultMaxToolCalls + 1
    ∧ (0 < maxToolCalls →
        (handleChatLoop resp parseArgs toolFns fresh today model tokenId maxToolCalls
          messages).result = some (resp (maxToolCalls - 1))) := by
  have h := chatLoopAux_allToolCalls resp parseArgs toolFns fresh today model tokenId hall
  unfold handleChatLoop
  refine ⟨(h maxToolCalls 0 messages none).1, ?_, ?_, ?_⟩
  · rw [(h maxToolCalls 0 messages none).1]; omega
  · rw [(h defaultMaxToolCalls 0 messages none).1]; omega
  · intro hpos
    rw [(h maxToolCalls 0 messages none).2]
    have : maxToolCalls ≠ 0 := by omega
    simp [this]

/-- C7 (witness): with every response carrying a tool call and a bound of
2, the loop makes exactly 2 round trips and returns the 2nd response. -/
theorem C7_tool_loop_bound_witness :
    (handleChatLoop (fun _ => respWithTool) (fun _ => none) [] (fun _ _ => "uid")
        "2026-10-12" "m" "tok" 2 []).effects.countP Effect.isUpstreamCall = 2
    ∧ (handleChatLoop (fun _ => respWithTool) (fun _ => none) [] (fun _ _ => "uid")
        "2026-10-12" "m" "tok" 2 []).effects.countP Effect.isUpstreamCall ≤ 3
    ∧ (handleChatLoop (fun _ => respWithTool) (fun _ => none) [] (fun _ _ => "uid")
        "2026-10-12" "m" "tok" 2 []).result = some respWithTool := by
  have h := C7_tool_loop_bound (fun _ => respWithTool) (fun _ => none) [] (fun _ _ => "uid")
    "2026-10-12" "m" "tok" [] 2 (fun _ => rfl)
  exact ⟨h.1, h.2.1, h.2.2.2 (by decide)⟩
/-- No orchestrator effect touches the in-memory mirror. -/
theorem applyEffect_mirror (gs : GatewayState) (e : Effect) :
    (applyEffect gs e).mirror = gs.mirror := by
  cases e <;> rfl

/-- No orchestrator effect changes a credential row except for its usage
counter. -/
theorem applyEffect_stripUsage (gs : GatewayState) (e : Effect) :
    (applyEffect gs e).storeTokens.map stripUsage = gs.storeTokens.map stripUsage := by
  cases e with
  | upstreamCall => rfl
  | ledgerUpdate d m n => rfl
  | incrementUsage id =>
    show (gs.storeTokens.map _).map stripUsage = _
    rw [List.map_map]
    refine List.map_congr_left (fun p _ => ?_)
    by_cases h : p.1 = id <;> simp [stripUsage, Function.comp, h]

/-- Applying any orchestrator effect trace preserves the mirror and every
credential-row field except usage counters. -/
theorem applyEffects_mirror_stripUsage :
    ∀ (es : List Effect) (gs : GatewayState),
    (applyEffects gs es).mirror = gs.mirror
    ∧ (applyEffects gs es).storeTokens.map stripUsage = gs.storeTokens.map stripUsage
  | [], gs => ⟨rfl, rfl⟩
  | e :: es, gs => by
    have ih := applyEffects_mirror_stripUsage es (applyEffect gs e)
    unfold applyEffects
    exact ⟨ih.1.trans (applyEffect_mirror gs e),
      ih.2.trans (applyEffect_stripUsage gs e)⟩

/-- C9 (counterexample): the Request Orchestrator *does* write credential
rows in the store directly: one terminal chat exchange calls
`db.increment_token_usage_count`, which updates the credential row's
`usage_count` in the store while the Pool's in-memory mirror is untouched
(so mirror and store diverge until the next reload), without going through
any Pool operation. -/
theorem C9_orchestrator_writes_store_cex :
    (applyEffects gsOne
        (handleChatLoop (fun _ => respTerminal) (fun _ => none) [] (fun _ _ => "u")
          "2026-10-12" "m" "tok" 10 [Msg.plain "user" "hi"]).effects).storeTokens
      ≠ gsOne.storeTokens
    ∧ (applyEffects gsOne
        (handleChatLoop (fun _ => respTerminal) (fun _ => none) [] (fun _ _ => "u")
          "2026-10-12" "m" "tok" 10 [Msg.plain "user" "hi"]).effects).mirror
      = gsOne.mirror := by
  constructor
  · decide
  · decide

/-- C9 (amended): the orchestrator's only direct credential-row write is
the usage-counter increment: applying the effect trace of any `handle_chat`
tool-loop run to the store never touches the in-memory mirror and preserves
every credential row up to its `usage_count` field (ids, secrets, expiry
and upload time are written only by Pool operations). -/
theorem C9_orchestrator_store_writes_amended (resp : Nat → ChatResult)
    (parseArgs : String → Option (List (String × JVal)))
    (toolFns : List (String × RegisteredTool)) (fresh : Nat → Nat → String)
    (today model tokenId : String) (maxToolCalls : Nat) (messages : List Msg)
    (gs : GatewayState) :
    (applyEffects gs
        (handleChatLoop resp parseArgs toolFns fresh today model tokenId maxToolCalls
          messages).effects).mirror = gs.mirror
    ∧ (applyEffects gs
        (handleChatLoop resp parseArgs toolFns fresh today model tokenId maxToolCalls
          messages).effects).storeTokens.map stripUsage
      = gs.storeTokens.map stripUsage :=
  applyEffects_mirror_stripUsage _ gs
/-- `execute_tool_calls` produces exactly one result per call. -/
theorem executeToolCalls_length (parseArgs : String → Option (List (String × JVal)))
    (toolFns : List (String × RegisteredTool)) (fresh : Nat → String) :
    ∀ (calls : List ToolCall) (start : Nat),
    (executeToolCalls parseArgs toolFns fresh start calls).length = calls.length
  | [], _ => rfl
  | _ :: rest, start => by
    unfold executeToolCalls
    simp only [List.length_cons]
    rw [executeToolCalls_length parseArgs toolFns fresh rest (start + 1)]

/-- The batch is an indexed map: the result at position `i` depends only on
the call at position `i` (and the uuid draw for that position). -/
theorem executeToolCalls_getElem (parseArgs : String → Option (List (String × JVal)))
    (toolFns : List (String × RegisteredTool)) (fresh : Nat → String) :
    ∀ (calls : List ToolCall) (start i : Nat),
    (executeToolCalls parseArgs toolFns fresh start calls)[i]?
      = (calls[i]?).map (fun c => executeOneToolCall parseArgs toolFns fresh (start + i) c)
  | [], start, i => by simp [executeToolCalls]
  | c :: rest, start, i => by
    cases i with
    | zero => simp [executeToolCalls]
    | succ j =>
      unfold executeToolCalls
      simp only [List.getElem?_cons_succ]
      have heq : start + 1 + j = start + (j + 1) := by omega
      rw [executeToolCalls_getElem parseArgs toolFns fresh rest (start + 1) j, heq]

/-- Every branch of the per-call execution carries the call's id (or the
fresh uuid when the id is missing). -/
theorem executeOneToolCall_id (parseArgs : String → Option (List (String × JVal)))
    (toolFns : List (String × RegisteredTool)) (fresh : Nat → String)
    (i : Nat) (c : ToolCall) :
    (executeOneToolCall parseArgs toolFns fresh i c).tool_call_id = c.id.getD (fresh i) := by
  unfold executeOneToolCall
  cases h : (c.function.getD ⟨none, none⟩).name with
  | none => rfl
  | some name =>
    by_cases he : name = ""
    · simp [he]
    · simp only [he, if_false]
      rcases hr : executeTool toolFns name
          ((parseArgs ((c.function.getD ⟨none, none⟩).arguments.getD "\x7b\x7d")).getD [])
        with ⟨b, content, err⟩
      cases b <;> simp [hr]
/-- C8: `execute_tool_calls` executes each call independently — the result
list has one entry per call, in input order, each depending only on its own
call (and its position's uuid draw); a call with a missing id gets the
freshly generated uuid for its position (distinct positions give distinct
uuids); unparsable JSON arguments behave exactly as an empty argument set;
a handler exception is converted by the registry into a failure result; and
any failed execution is embedded as structured error content in the
`role:"tool"` result rather than propagated, never aborting the rest of the
batch. -/
theorem C8_execute_batch (parseArgs : String → Option (List (String × JVal)))
    (toolFns : List (String × RegisteredTool)) (fresh : Nat → String)
    (calls : List ToolCall) :
    (executeToolCalls parseArgs toolFns fresh 0 calls).length = calls.length
    ∧ (∀ i : Nat, (executeToolCalls parseArgs toolFns fresh 0 calls)[i]?
        = (calls[i]?).map (fun c => executeOneToolCall parseArgs toolFns fresh i c))
    ∧ (∀ (i : Nat) (c : ToolCall), calls[i]? = some c →
        (executeToolCalls parseArgs toolFns fresh 0 calls)[i]?
          = some (executeOneToolCall parseArgs toolFns fresh i c)
        ∧ (executeOneToolCall parseArgs toolFns fresh i c).tool_call_id
          = c.id.getD (fresh i))
    ∧ (Function.Injective fresh →
        ∀ (i j : Nat) (ci cj : ToolCall), i ≠ j →
        ci.id = none → cj.id = none →
        (executeOneToolCall parseArgs toolFns fresh i ci).tool_call_id
          ≠ (executeOneToolCall parseArgs toolFns fresh j cj).tool_call_id)
    ∧ (∀ (i : Nat) (c : ToolCall) (fn : ToolFunction),
        c.function = some fn →
        parseArgs (fn.arguments.getD "\x7b\x7d") = none →
        executeOneToolCall parseArgs toolFns fresh i c
          = executeOneToolCall (fun _ => some []) toolFns fresh i c)
    ∧ (∀ (name : String) (args : List (String × JVal)) (tool : RegisteredTool) (msg : String),
        assocLookup toolFns name = some tool →
        (validateArguments args tool.required tool.properties).valid = true →
        tool.run args = .exn msg →
        executeTool toolFns name args = ⟨false, "", some ("工具执行错误: " ++ msg)⟩)
    ∧ (∀ (i : Nat) (c : ToolCall) (fn : ToolFunction) (name s err : String),
        c.function = some fn → fn.name = some name → name ≠ "" →
        executeTool toolFns name ((parseArgs (fn.arguments.getD "\x7b\x7d")).getD [])
          = ⟨false, s, some err⟩ →
        executeOneToolCall parseArgs toolFns fresh i c
          = ⟨c.id.getD (fresh i), jsonErrorContent err⟩) := by
  refine ⟨executeToolCalls_length parseArgs toolFns fresh calls 0, ?_, ?_, ?_, ?_, ?_, ?_⟩
  · intro i
    simpa using executeToolCalls_getElem parseArgs toolFns fresh calls 0 i
  · intro i c hc
    refine ⟨?_, executeOneToolCall_id parseArgs toolFns fresh i c⟩
    have h := executeToolCalls_getElem parseArgs toolFns fresh calls 0 i
    rw [hc] at h
    simpa using h
  · intro hinj i j ci cj hij hci hcj
    rw [executeOneToolCall_id, executeOneToolCall_id, hci, hcj]
    simp only [Option.getD_none]
    intro heq
    exact hij (hinj heq)
  · intro i c fn hfn hparse
    unfold executeOneToolCall
    rw [hfn]
    simp only [Option.getD_some]
    cases hn : fn.name with
    | none => rfl
    | some name =>
      by_cases he : name = ""
      · simp [he]
      · simp only [he, if_false]
        rw [hparse]
        rfl
  · intro name args tool msg hlook hvalid hrun
    rcases hval : validateArguments args tool.required tool.properties with ⟨b, errf⟩
    cases b with
    | false => rw [hval] at hvalid; simp at hvalid
    | true =>
      unfold executeTool
      rw [hlook]
      simp [hval, hrun]
  · intro i c fn name s err hfn hname hne hexec
    unfold executeOneToolCall
    rw [hfn]
    simp only [Option.getD_some]
    rw [hname]
    simp only [hne, if_false]
    rw [hexec]
    rfl

/-- C8 (witness): a batch of one call with a missing id and an unregistered
tool name gets result position 0, the fresh uuid, and embedded error
content. -/
theorem C8_execute_batch_witness :
    (executeToolCalls (fun _ => none) [] (fun i => "uuid" ++ toString i) 0
        [{ id := none, function := some { name := some "g", arguments := some "oops" } }])[0]?
      = some (executeOneToolCall (fun _ => none) [] (fun i => "uuid" ++ toString i) 0
          { id := none, function := some { name := some "g", arguments := some "oops" } })
    ∧ (executeOneToolCall (fun _ => none) [] (fun i => "uuid" ++ toString i) 0
        { id := none, function := some { name := some "g", arguments := some "oops" } }).tool_call_id
      = (none : Option String).getD ("uuid" ++ toString 0) :=
  (C8_execute_batch (fun _ => none) [] (fun i => "uuid" ++ toString i)
    [{ id := none, function := some { name := some "g", arguments := some "oops" } }]).2.2.1
    0 { id := none, function := some { name := some "g", arguments := some "oops" } } rfl
/-! ## Streaming relay lemmas -/

/-- Every line is either relayed verbatim (with its newline) or dropped
whole. -/
theorem processLine_out (parse : List Char → Option StreamDelta) (st : StreamState)
    (line : List Char) :
    (processLine parse st line).2 = [line ++ ['\n']] ∨ (processLine parse st line).2 = [] := by
  unfold processLine
  split
  · split
    · split
      · left; rfl
      · split
        · left; rfl
        · split
          · left; rfl
          · right; rfl
    · left; rfl
  · left; rfl

/-- A dropped line is necessarily a parsed `data:` line whose delta content
is nonempty and equal to the previously seen content. -/
theorem processLine_drop (parse : List Char → Option StreamDelta) (st : StreamState)
    (line : List Char) (h : (processLine parse st line).2 = []) :
    charsStartWith dataColon line = true
    ∧ ∃ delta, parse (pyStrip (line.drop 5)) = some delta
        ∧ delta.content ≠ [] ∧ delta.content = st.lastContent := by
  unfold processLine at h
  by_cases h1 : charsStartWith dataColon line
  · refine ⟨h1, ?_⟩
    rw [if_pos h1] at h
    by_cases h2 : pyStrip (line.drop 5) ≠ [] ∧ pyStrip (line.drop 5) ≠ doneMarker
    · rw [if_pos h2] at h
      cases hp : parse (pyStrip (line.drop 5)) with
      | none => rw [hp] at h; simp at h
      | some delta =>
        rw [hp] at h
        simp only at h
        by_cases h3 : delta.content ≠ [] ∧ delta.content ≠ st.lastContent
        · rw [if_pos h3] at h; simp at h
        · rw [if_neg h3] at h
          by_cases h4 : delta.content = []
          · rw [if_pos h4] at h; simp at h
          · refine ⟨delta, rfl, h4, ?_⟩
            by_contra hne
            exact h3 ⟨h4, hne⟩
    · rw [if_neg h2] at h; simp at h
  · rw [if_neg h1] at h
    simp at h

/-- `splitNl` is a partition of the buffer: re-appending the newlines and
the trailing remainder recovers the input. -/
theorem splitNl_flatten : ∀ (s : List Char),
    ((splitNl s).1.map (fun l => l ++ ['\n'])).flatten ++ (splitNl s).2 = s
  | [] => rfl
  | c :: rest => by
    have ih := splitNl_flatten rest
    unfold splitNl
    by_cases h : c = '\n'
    · subst h
      simp only [if_true]
      rcases hsplit : splitNl rest with ⟨lines, rem⟩
      rw [hsplit] at ih
      simp only [List.map_cons, List.flatten_cons, List.nil_append, List.append_assoc] at ih ⊢
      rw [ih]
      rfl
    · simp only [h, if_false]
      rcases hsplit : splitNl rest with ⟨lines, rem⟩
      rw [hsplit] at ih
      cases lines with
      | nil =>
        simp only [List.map_nil, List.flatten_nil, List.nil_append] at ih ⊢
        rw [ih]
      | cons l ls =>
        simp only [List.map_cons, List.flatten_cons, List.cons_append, List.append_assoc] at ih ⊢
        rw [ih]
/-- With no dropped line, the bytes yielded for a batch of complete lines
are exactly those lines with their newlines. -/
theorem processLines_flatten (parse : List Char → Option StreamDelta) :
    ∀ (lines : List (List Char)) (st : StreamState),
    linesNoDrop parse st lines = true →
    (processLines parse st lines).2.flatten = (lines.map (fun l => l ++ ['\n'])).flatten
  | [], _st => fun _ => rfl
  | l :: ls, st => by
    intro hnd
    unfold linesNoDrop at hnd
    simp only [Bool.and_eq_true, decide_eq_true_eq] at hnd
    obtain ⟨h1, h2⟩ := hnd
    simp only [processLines, List.map_cons, List.flatten_cons, List.flatten_append]
    rcases processLine_out parse st l with ho | ho
    · rw [ho, processLines_flatten parse ls (processLine parse st l).1 h2]
      simp
    · exact absurd ho h1

/-- C4's pass-through, positively: when no duplicate-content line is
dropped, the concatenation of all yielded bytes equals the buffered prefix
plus the concatenation of all received chunks (the final partial line is
flushed at end of stream). -/
theorem runStreamAux_flatten (parse : List Char → Option StreamDelta) :
    ∀ (chunks : List (List Char)) (buffer : List Char) (st : StreamState),
    streamNoDrop parse buffer st chunks = true →
    (runStreamAux parse buffer st chunks).2.flatten = buffer ++ chunks.flatten
  | [], buffer, st => by
    intro _h
    unfold runStreamAux
    by_cases hb : buffer ≠ []
    · rw [if_pos hb]; simp
    · rw [if_neg hb]
      simp only [not_not] at hb
      simp [hb]
  | chunk :: chunks, buffer, st => by
    intro hnd
    unfold streamNoDrop at hnd
    simp only [Bool.and_eq_true] at hnd
    obtain ⟨h1, h2⟩ := hnd
    simp only [runStreamAux, List.flatten_cons, List.flatten_append]
    rw [processLines_flatten parse _ st h1,
      runStreamAux_flatten parse chunks (splitNl (buffer ++ chunk)).2 _ h2]
    have hs := splitNl_flatten (buffer ++ chunk)
    rw [← List.append_assoc, hs, List.append_assoc]
/-- The relay never parses the `[DONE]` marker or an empty payload: two
parsers agreeing everywhere else process every line identically. -/
theorem processLine_congr (p1 p2 : List Char → Option StreamDelta)
    (hp : ∀ s, s ≠ [] → s ≠ doneMarker → p1 s = p2 s)
    (st : StreamState) (line : List Char) :
    processLine p1 st line = processLine p2 st line := by
  unfold processLine
  by_cases h1 : charsStartWith dataColon line
  · rw [if_pos h1, if_pos h1]
    by_cases h2 : pyStrip (line.drop 5) ≠ [] ∧ pyStrip (line.drop 5) ≠ doneMarker
    · rw [if_pos h2, if_pos h2, hp _ h2.1 h2.2]
    · rw [if_neg h2, if_neg h2]
  · rw [if_neg h1, if_neg h1]

/-- `processLine_congr` lifted to line batches. -/
theorem processLines_congr (p1 p2 : List Char → Option StreamDelta)
    (hp : ∀ s, s ≠ [] → s ≠ doneMarker → p1 s = p2 s) :
    ∀ (lines : List (List Char)) (st : StreamState),
    processLines p1 st lines = processLines p2 st lines
  | [], _ => rfl
  | l :: ls, st => by
    simp only [processLines]
    rw [processLine_congr p1 p2 hp st l,
      processLines_congr p1 p2 hp ls (processLine p2 st l).1]

/-- `processLine_congr` lifted to the whole chunked run. -/
theorem runStreamAux_congr (p1 p2 : List Char → Option StreamDelta)
    (hp : ∀ s, s ≠ [] → s ≠ doneMarker → p1 s = p2 s) :
    ∀ (chunks : List (List Char)) (buffer : List Char) (st : StreamState),
    runStreamAux p1 buffer st chunks = runStreamAux p2 buffer st chunks
  | [], _, _ => rfl
  | chunk :: chunks, buffer, st => by
    simp only [runStreamAux]
    rw [processLines_congr p1 p2 hp (splitNl (buffer ++ chunk)).1 st,
      runStreamAux_congr p1 p2 hp chunks (splitNl (buffer ++ chunk)).2
        (processLines p2 st (splitNl (buffer ++ chunk)).1).1]

/-- If the parser only ever reports empty delta content, no line grows the
completion text. -/
theorem processLine_completion (parse : List Char → Option StreamDelta)
    (hp : ∀ s d, parse s = some d → d.content = [])
    (st : StreamState) (line : List Char) :
    (processLine parse st line).1.completionText = st.completionText := by
  unfold processLine
  by_cases h1 : charsStartWith dataColon line
  · rw [if_pos h1]
    by_cases h2 : pyStrip (line.drop 5) ≠ [] ∧ pyStrip (line.drop 5) ≠ doneMarker
    · rw [if_pos h2]
      cases hpp : parse (pyStrip (line.drop 5)) with
      | none => rfl
      | some delta =>
        have hc := hp _ _ hpp
        simp [hc]
    · rw [if_neg h2]
  · rw [if_neg h1]

/-- `processLine_completion` lifted to line batches. -/
theorem processLines_completion (parse : List Char → Option StreamDelta)
    (hp : ∀ s d, parse s = some d → d.content = []) :
    ∀ (lines : List (List Char)) (st : StreamState),
    (processLines parse st lines).1.completionText = st.completionText
  | [], _ => rfl
  | l :: ls, st => by
    simp only [processLines]
    rw [processLines_completion parse hp ls (processLine parse st l).1,
      processLine_completion parse hp st l]

/-- `processLine_completion` lifted to the whole chunked run. -/
theorem runStreamAux_completion (parse : List Char → Option StreamDelta)
    (hp : ∀ s d, parse s = some d → d.content = []) :
    ∀ (chunks : List (List Char)) (buffer : List Char) (st : StreamState),
    (runStreamAux parse buffer st chunks).1.completionText = st.completionText
  | [], buffer, st => by
    unfold runStreamAux
    by_cases hb : buffer ≠ []
    · rw [if_pos hb]
    · rw [if_neg hb]
  | chunk :: chunks, buffer, st => by
    simp only [runStreamAux]
    rw [runStreamAux_completion parse hp chunks (splitNl (buffer ++ chunk)).2
        (processLines parse st (splitNl (buffer ++ chunk)).1).1,
      processLines_completion parse hp (splitNl (buffer ++ chunk)).1 st]
/-- C4 (counterexample): the streaming path is *not* a byte-for-byte
pass-through.  Two consecutive upstream lines with the same nonempty delta
content `"a"` are received, but the second is dropped by the
`current_content != last_content` check, so the concatenation of the bytes
yielded differs from the concatenation of the bytes received. -/
theorem C4_stream_dedup_cex :
    (handleStreamResponse parseA List.length "d" "m" "tok" 7
        [lineA ++ ['\n'], lineA ++ ['\n']]).2.1.flatten
      ≠ ([lineA ++ ['\n'], lineA ++ ['\n']] : List (List Char)).flatten := by
  decide

/-- C4 (amended): every upstream line is either relayed verbatim (with its
newline) or dropped whole, and a drop happens only for a parsed `data:`
line whose delta content is nonempty and equal to the previously seen
content; when no such duplicate occurs the concatenation of yielded bytes
equals the concatenation of received bytes (the trailing partial line is
flushed at end of stream); and the `data: [DONE]` marker line — like any
empty payload — is relayed but never parsed: the run does not depend on the
parser's value there. -/
theorem C4_stream_relay_amended (parse : List Char → Option StreamDelta)
    (countTokens : List Char → Nat) (today model tokenId : String)
    (promptTokens : Nat) (chunks : List (List Char)) :
    (∀ (st : StreamState) (line : List Char),
      (processLine parse st line).2 = [line ++ ['\n']] ∨ (processLine parse st line).2 = [])
    ∧ (∀ (st : StreamState) (line : List Char), (processLine parse st line).2 = [] →
        charsStartWith dataColon line = true
        ∧ ∃ delta, parse (pyStrip (line.drop 5)) = some delta
            ∧ delta.content ≠ [] ∧ delta.content = st.lastContent)
    ∧ (streamNoDrop parse [] ⟨[], [], false⟩ chunks = true →
        (handleStreamResponse parse countTokens today model tokenId promptTokens
            chunks).2.1.flatten = chunks.flatten)
    ∧ (∀ p2 : List Char → Option StreamDelta,
        (∀ s, s ≠ [] → s ≠ doneMarker → parse s = p2 s) →
        handleStreamResponse parse countTokens today model tokenId promptTokens chunks
          = handleStreamResponse p2 countTokens today model tokenId promptTokens chunks) := by
  refine ⟨processLine_out parse, processLine_drop parse, ?_, ?_⟩
  · intro hnd
    unfold handleStreamResponse
    simpa using runStreamAux_flatten parse chunks [] ⟨[], [], false⟩ hnd
  · intro p2 hp
    unfold handleStreamResponse
    rw [runStreamAux_congr parse p2 hp chunks [] ⟨[], [], false⟩]

/-- C4 (witness for the amended theorem): a stream with one content line
and a `[DONE]` line passes through byte-for-byte. -/
theorem C4_stream_relay_amended_witness :
    (handleStreamResponse parseA List.length "d" "m" "tok" 7
        [lineA ++ ['\n'], doneChunk]).2.1.flatten
      = ([lineA ++ ['\n'], doneChunk] : List (List Char)).flatten :=
  (C4_stream_relay_amended parseA List.length "d" "m" "tok" 7
    [lineA ++ ['\n'], doneChunk]).2.2.1 (by decide)

/-- C5 (counterexample): a stream with no content deltas (a bare
`data: [DONE]` line) accumulates no completion text, and the Usage Ledger
is *not* updated with the prompt token count — the accounting block is
skipped entirely, so no ledger write (and no counter increment) happens at
all, contrary to the claim that exactly the prompt tokens are recorded. -/
theorem C5_stream_no_content_cex :
    (handleStreamResponse (fun _ => none) List.length "d" "m" "tok" 7
        [doneChunk]).1.completionText = []
    ∧ (handleStreamResponse (fun _ => none) List.length "d" "m" "tok" 7
        [doneChunk]).2.2 = []
    ∧ Effect.ledgerUpdate "d" "m" 7 ∉
        (handleStreamResponse (fun _ => none) List.length "d" "m" "tok" 7
          [doneChunk]).2.2 := by
  decide

/-- C5 (amended): for every streamed response that contains no content
deltas, the completion text stays empty and the post-stream accounting is
skipped entirely: no Usage-Ledger write and no usage-counter increment
occur (in particular nothing — not even the prompt tokens — is recorded). -/
theorem C5_no_content_no_ledger_amended (parse : List Char → Option StreamDelta)
    (countTokens : List Char → Nat) (today model tokenId : String)
    (promptTokens : Nat) (chunks : List (List Char))
    (hp : ∀ s d, parse s = some d → d.content = []) :
    (handleStreamResponse parse countTokens today model tokenId promptTokens
        chunks).1.completionText = []
    ∧ (handleStreamResponse parse countTokens today model tokenId promptTokens
        chunks).2.2 = [] := by
  have hct := runStreamAux_completion parse hp chunks [] ⟨[], [], false⟩
  unfold handleStreamResponse
  refine ⟨hct, ?_⟩
  simp only [streamUsageEffects, hct]
  rfl

/-- C5 (witness for the amended theorem): the `[DONE]`-only stream records
nothing. -/
theorem C5_no_content_no_ledger_amended_witness :
    (handleStreamResponse (fun _ => none) List.length "d" "m" "tok" 7
        [doneChunk]).1.completionText = []
    ∧ (handleStreamResponse (fun _ => none) List.length "d" "m" "tok" 7
        [doneChunk]).2.2 = [] :=
  C5_no_content_no_ledger_amended (fun _ => none) List.length "d" "m" "tok" 7
    [doneChunk] (fun _ _d h => Option.noConfusion h)
